import Mathlib

/-!
Shallow embedding of the candle-window trading bot in src/trader1.py.

Prices are modelled as exact rationals (the Python source uses floats; every
claim checked here is evaluated at inputs whose arithmetic is exact in both
models).  The mutable instance fields `self.candles` / `self.position` become
an explicit `BotState` threaded through the operations.  A Python exception
escaping an operation is modelled as the `Except.error` / error component of
the corresponding Lean function.  Line numbers in doc comments refer to
src/trader1.py.
-/

/-- Candles kept in the rolling window (`self.lookback_period = 50`, line 24). -/
def lookback_period : Nat := 50

/-- Relative tolerance for matching the two peak or trough prices
(`self.tolerance = 0.002`, line 25). -/
def tolerance : ℚ := 2 / 1000

/-- Minimum index distance between the two peaks or troughs
(`self.min_candles_between = 10`, line 26). -/
def min_candles_between : Nat := 10

/-- One OHLC candle (the dict built at lines 89-95 / 101-107). The field `opn`
embeds the dict key `'open'` (`open` is a Lean keyword). -/
structure Candle where
  time : Int
  opn : ℚ
  high : ℚ
  low : ℚ
  close : ℚ
deriving DecidableEq, Repr, Inhabited

/-- A detected pattern dict (lines 169-177 / 213-221).  For a double bottom the
source dict uses keys `'trough1'`/`'trough2'`; they are embedded in the fields
`peak1`/`peak2` of this common record shape. -/
structure Signal where
  pattern : String
  peak1 : ℚ
  peak2 : ℚ
  neckline : ℚ
  entry : ℚ
  stop_loss : ℚ
  take_profit : ℚ
deriving DecidableEq, Repr

/-- The open position dict (`self.position`, lines 284-289). -/
structure Position where
  type : String
  entry : ℚ
  stop_loss : ℚ
  take_profit : ℚ
deriving DecidableEq, Repr

/-- The mutable bot state: `self.candles` and `self.position`. -/
structure BotState where
  candles : List Candle
  position : Option Position
deriving DecidableEq, Repr

/-- Freshly constructed bot: empty window, no position (lines 20-21). -/
def initBot : BotState := { candles := [], position := none }

/-- Which branch of `execute_trade` ran: the early return at line 258
(`skipped_existing_position`) or the full body that records the position
(`executed`). -/
inductive ExecOutcome
  | executed
  | skipped_existing_position
deriving DecidableEq, Repr

/-- The peak condition of `find_peaks` at index `i` (lines 122-123):
`data[i] >= data[i-j]` and `data[i] >= data[i+j]` for all `j` in `1..order`. -/
def isPeak (data : List ℚ) (order i : Nat) : Bool :=
  ((List.range' 1 order).all fun j => decide (data.getD (i - j) 0 ≤ data.getD i 0)) &&
  ((List.range' 1 order).all fun j => decide (data.getD (i + j) 0 ≤ data.getD i 0))

/-- `find_peaks` (lines 118-125): indices `i` in `range(order, len(data)-order)`
satisfying the peak condition.  The source's default `order=3` is passed
explicitly at the call sites. -/
def find_peaks (data : List ℚ) (order : Nat) : List Nat :=
  (List.range' order (data.length - 2 * order)).filter fun i => isPeak data order i

/-- The trough condition of `find_troughs` at index `i` (lines 131-132). -/
def isTrough (data : List ℚ) (order i : Nat) : Bool :=
  ((List.range' 1 order).all fun j => decide (data.getD i 0 ≤ data.getD (i - j) 0)) &&
  ((List.range' 1 order).all fun j => decide (data.getD i 0 ≤ data.getD (i + j) 0))

/-- `find_troughs` (lines 127-134). -/
def find_troughs (data : List ℚ) (order : Nat) : List Nat :=
  (List.range' order (data.length - 2 * order)).filter fun i => isTrough data order i

/-- Python `min` over a list, applied only to nonempty lists in the source. -/
def pyMin : List ℚ → ℚ
  | [] => 0
  | x :: xs => xs.foldl min x

/-- Python `max` over a list, applied only to nonempty lists in the source. -/
def pyMax : List ℚ → ℚ
  | [] => 0
  | x :: xs => xs.foldl max x

/-- The access `self.candles[-1]`, used only on nonempty windows. -/
def lastCandle (cs : List Candle) : Candle := (cs.getLast?).getD default

/-- The pair sequence visited by the backward loop at line 148/192:
`(peaks[i], peaks[i+1])` for `i` from `len(peaks)-2` down to `0`. -/
def backward_pairs (idxs : List Nat) : List (Nat × Nat) :=
  (idxs.zip idxs.tail).reverse

/-- Loop body of `detect_double_top` (lines 148-177): scan candidate peak pairs,
most recent adjacent pair first; reject a pair whose gap is below
`min_candles_between`; on a tolerated pair compute the neckline as the minimum
low over the inclusive index range and emit iff the current close is strictly
below it, otherwise keep scanning.  The `price_diff` division at line 160
raises `ZeroDivisionError` when `peak1_price` is exactly zero (float division
raises precisely on a zero divisor, and the prices are exact decimal values
from the feed), which aborts the whole detection call. -/
def scan_top (cs : List Candle) (highs : List ℚ) :
    List (Nat × Nat) → Except String (Option Signal)
  | [] => Except.ok none
  | p :: rest =>
    if p.2 - p.1 < min_candles_between then
      scan_top cs highs rest
    else
      let peak1_price := highs.getD p.1 0
      let peak2_price := highs.getD p.2 0
      if peak1_price = 0 then
        Except.error "ZeroDivisionError: float division by zero"
      else
        let price_diff := |peak1_price - peak2_price| / peak1_price
        if price_diff ≤ tolerance then
          let between_lows := (List.range' p.1 (p.2 + 1 - p.1)).map fun j => (cs.getD j default).low
          let neckline := pyMin between_lows
          let current_price := (lastCandle cs).close
          if current_price < neckline then
            let sig : Signal :=
              { pattern := "double_top", peak1 := peak1_price, peak2 := peak2_price,
                neckline := neckline, entry := current_price,
                stop_loss := max peak1_price peak2_price,
                take_profit := neckline - (max peak1_price peak2_price - neckline) }
            Except.ok (some sig)
          else
            scan_top cs highs rest
        else
          scan_top cs highs rest

/-- `detect_double_top` (lines 136-178): `Except.ok` carries the returned dict
or `None`; `Except.error` is the `ZeroDivisionError` escaping the loop. -/
def detect_double_top (cs : List Candle) : Except String (Option Signal) :=
  if cs.length < 20 then Except.ok none
  else
    let highs := cs.map fun c => c.high
    let peaks := find_peaks highs 3
    if peaks.length < 2 then Except.ok none
    else scan_top cs highs (backward_pairs peaks)

/-- Loop body of `detect_double_bottom` (lines 192-221), the mirror image of
`scan_top`: neckline is the maximum high between the troughs and confirmation
requires the current close strictly above it; the division at line 204 raises
`ZeroDivisionError` when `trough1_price` is exactly zero. -/
def scan_bottom (cs : List Candle) (lows : List ℚ) :
    List (Nat × Nat) → Except String (Option Signal)
  | [] => Except.ok none
  | p :: rest =>
    if p.2 - p.1 < min_candles_between then
      scan_bottom cs lows rest
    else
      let trough1_price := lows.getD p.1 0
      let trough2_price := lows.getD p.2 0
      if trough1_price = 0 then
        Except.error "ZeroDivisionError: float division by zero"
      else
        let price_diff := |trough1_price - trough2_price| / trough1_price
        if price_diff ≤ tolerance then
          let between_highs := (List.range' p.1 (p.2 + 1 - p.1)).map fun j => (cs.getD j default).high
          let neckline := pyMax between_highs
          let current_price := (lastCandle cs).close
          if neckline < current_price then
            let sig : Signal :=
              { pattern := "double_bottom", peak1 := trough1_price, peak2 := trough2_price,
                neckline := neckline, entry := current_price,
                stop_loss := min trough1_price trough2_price,
                take_profit := neckline + (neckline - min trough1_price trough2_price) }
            Except.ok (some sig)
          else
            scan_bottom cs lows rest
        else
          scan_bottom cs lows rest

/-- `detect_double_bottom` (lines 180-222). -/
def detect_double_bottom (cs : List Candle) : Except String (Option Signal) :=
  if cs.length < 20 then Except.ok none
  else
    let lows := cs.map fun c => c.low
    let troughs := find_troughs lows 3
    if troughs.length < 2 then Except.ok none
    else scan_bottom cs lows (backward_pairs troughs)

/-- `execute_trade` (lines 253-290).  If a position is already open the call is
a no-op apart from the warning print (branch `skipped_existing_position`);
otherwise the position record is stored.  The `risk_amount` local and the
`trade_request` dict are computed and then unused in the default configuration
(the send at line 282 is commented out), so they have no observable effect. -/
def execute_trade (st : BotState) (trade_type : String) (signal : Signal) :
    BotState × ExecOutcome :=
  match st.position with
  | some _ => (st, ExecOutcome.skipped_existing_position)
  | none =>
    let pos : Position :=
      { type := trade_type, entry := signal.entry,
        stop_loss := signal.stop_loss, take_profit := signal.take_profit }
    ({ st with position := some pos }, ExecOutcome.executed)

/-- First half of `analyze_patterns` (lines 229-239): run the double-top
detector and, on a hit, execute a PUT trade.  An exception escaping the
detector aborts the pass before any state change. -/
def after_top (st : BotState) : Except String BotState :=
  match detect_double_top st.candles with
  | Except.error e => Except.error e
  | Except.ok (some sig) => Except.ok (execute_trade st "PUT" sig).1
  | Except.ok none => Except.ok st

/-- The pattern/trade part of `analyze_patterns` (lines 229-251): double top
first (PUT), then double bottom (CALL), each feeding `execute_trade`.  The
result is the state as the pass leaves it together with the escaped exception,
if any: an exception in the double-bottom detector escapes AFTER the double
top's trade has already been executed, so the partially updated state is kept.
`bottom_pass` is the double-bottom half (lines 242-251). -/
def bottom_pass (st1 : BotState) : BotState × Option String :=
  match detect_double_bottom st1.candles with
  | Except.error e => (st1, some e)
  | Except.ok (some sig) => ((execute_trade st1 "CALL" sig).1, none)
  | Except.ok none => (st1, none)

/-- Composition of the two pattern halves: the double-top half aborts the pass
on an escaped exception, otherwise its resulting state feeds `bottom_pass`. -/
def analyze_core (st : BotState) : BotState × Option String :=
  match after_top st with
  | Except.error e => (st, some e)
  | Except.ok st1 => bottom_pass st1

/-- Lower and upper bound of the timestamps `datetime.fromtimestamp` accepts:
the proleptic-Gregorian years 1 to 9999, in UTC seconds.  The exact cutoffs at
line 226 are platform- and timezone-dependent (they shift by at most a day);
no theorem below depends on their values. -/
def fromtimestamp_min : Int := -62135596800

/-- Upper counterpart of `fromtimestamp_min` (end of year 9999, UTC). -/
def fromtimestamp_max : Int := 253402300799

/-- `analyze_patterns` (lines 224-251).  Line 226 evaluates
`datetime.fromtimestamp(self.candles[-1]['time'])`, which raises `IndexError`
on an empty window and an out-of-range error for a timestamp outside the
representable datetime range; either exception aborts the pass before any
detection.  The pair is the state the pass leaves behind together with the
escaped exception, if any. -/
def analyze_patterns (st : BotState) : BotState × Option String :=
  match st.candles.getLast? with
  | none => (st, some "IndexError: list index out of range")
  | some c =>
    if c.time < fromtimestamp_min ∨ fromtimestamp_max < c.time then
      (st, some "OverflowError: timestamp out of range")
    else
      analyze_core st

/-- The window mutation of the append branch of `update_candle`
(lines 113-115): append, then evict the head if the cap is exceeded. -/
def window_step (cs : List Candle) (nc : Candle) : List Candle :=
  let cs2 := cs ++ [nc]
  if lookback_period < cs2.length then cs2.drop 1 else cs2

/-- Lines 109-116 of `update_candle`, applied to an already-parsed candle:
if the window is nonempty and its last entry has the incoming time, replace
that last entry in place; otherwise append (evicting on overflow) and re-run
`analyze_patterns`.  The window mutation happens BEFORE the analysis call, so
an exception escaping the analysis leaves the already-updated window behind;
the pair is the state after the call together with that exception, if any. -/
def apply_candle (st : BotState) (nc : Candle) : BotState × Option String :=
  if st.candles.getLast?.map Candle.time = some nc.time then
    ({ st with candles := st.candles.dropLast ++ [nc] }, none)
  else
    analyze_patterns { st with candles := window_step st.candles nc }

/-- Raw `ohlc` payload of `update_candle`.  Each field is the outcome of the
dict access and `float()` conversion at lines 101-107: `none` means the key is
missing (`KeyError`) or the value is non-numeric (`float()` raises). -/
structure RawOhlc where
  epoch : Option Int
  opn : Option ℚ
  high : Option ℚ
  low : Option ℚ
  close : Option ℚ
deriving DecidableEq, Repr

/-- Construction of `new_candle` (lines 101-107).  The first failing field
access or conversion raises, before any mutation of the window. -/
def parseOhlc (m : RawOhlc) : Except String Candle :=
  match m.epoch with
  | none => Except.error "KeyError: epoch"
  | some t =>
    match m.opn with
    | none => Except.error "ValueError: could not convert to float: open"
    | some o =>
      match m.high with
      | none => Except.error "ValueError: could not convert to float: high"
      | some h =>
        match m.low with
        | none => Except.error "ValueError: could not convert to float: low"
        | some l =>
          match m.close with
          | none => Except.error "ValueError: could not convert to float: close"
          | some c => Except.ok { time := t, opn := o, high := h, low := l, close := c }

/-- `update_candle` (lines 99-116) as seen by the caller: the state after the
call together with the escaped exception, if any.  An exception raised while
building `new_candle` escapes before the window is touched, so the state
component is then the unchanged input state. -/
def update_candle (st : BotState) (m : RawOhlc) : BotState × Option String :=
  match parseOhlc m with
  | Except.error e => (st, some e)
  | Except.ok nc => apply_candle st nc

/-- `process_candles` (lines 85-97) on already well-formed candles: replace the
whole window with the incoming history (lines 87-95, before any analysis),
then run `analyze_patterns`; an exception escaping the analysis leaves the
replaced window behind. -/
def process_candles (st : BotState) (cs : List Candle) : BotState × Option String :=
  analyze_patterns { st with candles := cs }

/-- Folds a stream of already-parsed live candles through `apply_candle`.  An
exception escaping one `update_candle` call is caught by the feed dispatch
layer and the next candle is delivered against the state the failed call left
behind, exactly as the in-place mutation of `self` behaves in the source. -/
def run_updates (st : BotState) : List Candle → BotState
  | [] => st
  | c :: rest => run_updates (apply_candle st c).1 rest

/-- The high series of claim C1: [1,2,3,10,3,2,1,1,2,3,10,3,2,1]. -/
def highs14 : List ℚ := [1, 2, 3, 10, 3, 2, 1, 1, 2, 3, 10, 3, 2, 1]

/-- A 14-candle window whose highs are `highs14`, with equal peak prices and the
most recent close (1/2) strictly below the lowest low (1) between the peaks. -/
def cs14 : List Candle :=
  (List.range 14).map fun i =>
    { time := Int.ofNat i, opn := 1, high := highs14.getD i 0, low := 1,
      close := if i = 13 then 1 / 2 else 1 }


def highsC8 : List ℚ :=
  [100, 101, 102, 105, 110, 105, 104, 103, 102, 102,
   102, 103, 104, 105, 110, 105, 104, 103, 102, 101]

def lowsC8 : List ℚ :=
  [97, 98, 99, 102, 107, 102, 101, 100, 100, 100,
   100, 100, 101, 102, 107, 102, 101, 100, 98, 94]

/-- A 20-candle window with a confirmed double top: equal peaks of 110 at
indices 4 and 14, neckline 100, final close 95. -/
def csC8 : List Candle :=
  (List.range 20).map fun i =>
    { time := Int.ofNat i, opn := lowsC8.getD i 0, high := highsC8.getD i 0,
      low := lowsC8.getD i 0, close := if i = 19 then 95 else lowsC8.getD i 0 }

/-- The signal `detect_double_top` emits on `csC8`. -/
def sigC8 : Signal :=
  { pattern := "double_top", peak1 := 110, peak2 := 110, neckline := 100,
    entry := 95, stop_loss := 110, take_profit := 90 }


def highs34 : List ℚ :=
  [18, 17, 16, 14, 12, 14, 15, 16, 17, 20, 17, 16, 15, 14, 12, 14, 16,
   19, 28, 40, 38, 36, 35, 34, 33, 34, 35, 36, 38, 40, 36, 32, 28, 26]

def lows34 : List ℚ :=
  [16, 15, 14, 12, 10, 12, 13, 14, 15, 16, 15, 14, 13, 12, 10, 12, 14,
   18, 24, 34, 33, 32, 31, 30, 30, 30, 31, 32, 34, 36, 32, 28, 25, 24]

/-- A 34-candle window on which a double bottom (troughs 10/10 at indices
4 and 14, neckline 20) and a double top (peaks 40/40 at indices 19 and 29,
neckline 30) confirm simultaneously: the final close 25 lies strictly between
the two necklines. -/
def cs34 : List Candle :=
  (List.range 34).map fun i =>
    { time := Int.ofNat i, opn := lows34.getD i 0, high := highs34.getD i 0,
      low := lows34.getD i 0, close := if i = 33 then 25 else lows34.getD i 0 }

/-- Bot state holding `cs34` with no open position. -/
def stC10 : BotState := { candles := cs34, position := none }

/-- The double-top signal emitted on `cs34`. -/
def sigT34 : Signal :=
  { pattern := "double_top", peak1 := 40, peak2 := 40, neckline := 30,
    entry := 25, stop_loss := 40, take_profit := 20 }

/-- The double-bottom signal emitted on `cs34`. -/
def sigB34 : Signal :=
  { pattern := "double_bottom", peak1 := 10, peak2 := 10, neckline := 20,
    entry := 25, stop_loss := 10, take_profit := 30 }

/-- A strictly increasing 7-element series (the example of claim C9). -/
def mono7 : List ℚ := [1, 2, 3, 4, 5, 6, 7]

/-- A short stream of candles with strictly increasing times. -/
def msgsW : List Candle :=
  [{ time := 0, opn := 1, high := 1, low := 1, close := 1 },
   { time := 1, opn := 1, high := 1, low := 1, close := 1 },
   { time := 2, opn := 1, high := 1, low := 1, close := 1 }]

/-- A two-candle window with times 1 and 2. -/
def stC4 : BotState :=
  { candles := [{ time := 1, opn := 1, high := 1, low := 1, close := 1 },
                { time := 2, opn := 2, high := 2, low := 2, close := 2 }],
    position := none }

/-- An update whose time 1 matches the first (non-last) candle of `stC4`. -/
def ncC4 : Candle := { time := 1, opn := 3, high := 3, low := 3, close := 3 }

/-- A single-candle window with time 1. -/
def stW4 : BotState :=
  { candles := [{ time := 1, opn := 1, high := 1, low := 1, close := 1 }],
    position := none }

/-- A correction for the (last) candle of `stW4` at the same time 1. -/
def ncW4 : Candle := { time := 1, opn := 2, high := 2, low := 2, close := 2 }

/-- A single-candle window with time 7. -/
def stW5 : BotState :=
  { candles := [{ time := 7, opn := 1, high := 2, low := 1, close := 1 }],
    position := none }

/-- A same-time correction for the last candle of `stW5`. -/
def ncW5 : Candle := { time := 7, opn := 1, high := 3, low := 1, close := 2 }

/-- An arbitrary concrete signal for exercising `execute_trade`. -/
def sigW : Signal :=
  { pattern := "double_top", peak1 := 1, peak2 := 1, neckline := 1,
    entry := 1, stop_loss := 1, take_profit := 1 }

/-- A one-candle history for exercising `process_candles`. -/
def csW7 : List Candle := [{ time := 0, opn := 1, high := 1, low := 1, close := 1 }]

/-- A malformed `ohlc` payload: the high field is missing or non-numeric. -/
def mBad : RawOhlc :=
  { epoch := some 0, opn := some 1, high := none, low := some 1, close := some 1 }

/-- A one-candle state fed with `mBad`. -/
def stW3 : BotState :=
  { candles := [{ time := 5, opn := 1, high := 2, low := 1, close := 1 }],
    position := none }

/-- Highs of a 20-candle window whose matched peak pair has first price 0. -/
def highsZ : List ℚ :=
  [0, 0, 0, 0, 0, 0, 0, 1, 2, 3, 4, 5, 6, 7, 8, 7, 6, 5, 4, 3]

/-- A well-formed (all prices non-negative, high = low = open = close)
20-candle window on which the double-top scan divides by zero: the peaks of
`highsZ` are the indices 3 and 14 (gap 11), and `peak1_price` is 0. -/
def csZ : List Candle :=
  (List.range 20).map fun i =>
    { time := Int.ofNat i, opn := highsZ.getD i 0, high := highsZ.getD i 0,
      low := highsZ.getD i 0, close := highsZ.getD i 0 }


/-! ## Basic frame lemmas: detection and execution never touch the window -/

theorem execute_trade_candles (st : BotState) (t : String) (sig : Signal) :
    ((execute_trade st t sig).1).candles = st.candles := by
  cases h : st.position <;> simp [execute_trade, h]

theorem after_top_ok_candles (st st1 : BotState) (h : after_top st = Except.ok st1) :
    st1.candles = st.candles := by
  cases hd : detect_double_top st.candles with
  | error e => simp [after_top, hd] at h
  | ok o =>
    cases o with
    | none =>
      simp [after_top, hd] at h
      rw [← h]
    | some sig =>
      simp [after_top, hd] at h
      rw [← h]
      exact execute_trade_candles st "PUT" sig

theorem bottom_pass_fst_candles (st1 : BotState) :
    (bottom_pass st1).1.candles = st1.candles := by
  unfold bottom_pass
  cases hb : detect_double_bottom st1.candles with
  | error e => rfl
  | ok o =>
    cases o with
    | none => rfl
    | some sig => exact execute_trade_candles st1 "CALL" sig

theorem analyze_core_fst_candles (st : BotState) :
    (analyze_core st).1.candles = st.candles := by
  unfold analyze_core
  cases ha : after_top st with
  | error e => rfl
  | ok st1 => exact (bottom_pass_fst_candles st1).trans (after_top_ok_candles st st1 ha)

theorem analyze_core_ok (st st1 : BotState) (h : after_top st = Except.ok st1) :
    analyze_core st = bottom_pass st1 := by
  unfold analyze_core
  rw [h]

theorem analyze_patterns_fst_candles (st : BotState) :
    (analyze_patterns st).1.candles = st.candles := by
  cases hg : st.candles.getLast? with
  | none => simp [analyze_patterns, hg]
  | some c =>
    simp only [analyze_patterns, hg]
    split_ifs with h
    · rfl
    · exact analyze_core_fst_candles st

theorem apply_candle_append (st : BotState) (nc : Candle)
    (h : ¬ st.candles.getLast?.map Candle.time = some nc.time) :
    (apply_candle st nc).1.candles = window_step st.candles nc := by
  unfold apply_candle
  rw [if_neg h]
  exact analyze_patterns_fst_candles _

/-! ## FIFO behaviour of the rolling window -/

theorem run_updates_append (st : BotState) (xs : List Candle) (c : Candle) :
    run_updates st (xs ++ [c]) = (apply_candle (run_updates st xs) c).1 := by
  induction xs generalizing st with
  | nil => simp [run_updates]
  | cons x xs ih => simp [run_updates, ih]

theorem window_step_drop (xs : List Candle) (c : Candle) :
    window_step (xs.drop (xs.length - lookback_period)) c =
      (xs ++ [c]).drop ((xs ++ [c]).length - lookback_period) := by
  simp only [window_step]
  have hlb : lookback_period = 50 := rfl
  have hdl : (xs.drop (xs.length - lookback_period)).length =
      xs.length - (xs.length - lookback_period) := List.length_drop _ _
  rcases Nat.lt_or_ge xs.length lookback_period with hlt | hge
  · have h0 : xs.length - lookback_period = 0 := by omega
    have h1 : (xs ++ [c]).length - lookback_period = 0 := by
      simp only [List.length_append, List.length_cons, List.length_nil]
      omega
    rw [h0, List.drop_zero, h1, List.drop_zero, if_neg]
    simp only [List.length_append, List.length_cons, List.length_nil]
    omega
  · rw [if_pos]
    · rw [List.drop_append_eq_append_drop, List.drop_append_eq_append_drop, List.drop_drop]
      have he1 : xs.length - lookback_period + 1 =
          (xs ++ [c]).length - lookback_period := by
        simp only [List.length_append, List.length_cons, List.length_nil]
        omega
      have he2 : 1 - (xs.drop (xs.length - lookback_period)).length = 0 := by omega
      have he3 : (xs ++ [c]).length - lookback_period - xs.length = 0 := by
        simp only [List.length_append, List.length_cons, List.length_nil]
        omega
      rw [he1, he2, he3]
    · rw [List.length_append, hdl]
      simp only [List.length_cons, List.length_nil]
      omega

theorem run_updates_window (msgs : List Candle) :
    msgs.Pairwise (fun a b => a.time < b.time) →
    (run_updates initBot msgs).candles =
      msgs.drop (msgs.length - lookback_period) := by
  induction msgs using List.reverseRecOn with
  | nil => intro _; simp [run_updates, initBot]
  | append_singleton xs c ih =>
    intro hinc
    rw [List.pairwise_append] at hinc
    obtain ⟨hxs, -, hlt⟩ := hinc
    have hcand := ih hxs
    rw [run_updates_append]
    have hne : ¬ (run_updates initBot xs).candles.getLast?.map Candle.time =
        some c.time := by
      intro hsome
      rcases Option.map_eq_some'.mp hsome with ⟨a, ha, hat⟩
      have hmem : a ∈ (run_updates initBot xs).candles := by
        rcases List.getLast?_eq_some_iff.mp ha with ⟨ys, hys⟩
        rw [hys]
        simp
      rw [hcand] at hmem
      have hmem2 : a ∈ xs := List.mem_of_mem_drop hmem
      have := hlt a hmem2 c (List.mem_singleton_self c)
      omega
    rw [apply_candle_append _ _ hne, hcand, window_step_drop]

/-- C2: starting from the empty window, for every stream of upserts with
strictly increasing times, after each upsert (each prefix of the stream) the
window is exactly the most recent `lookback_period` candles of the prefix, in
order — so its length never exceeds `lookback_period` (50), and once the cap
is reached each append evicts exactly the oldest candle while preserving the
relative order of the rest.  The window mutation at lines 113-115 precedes the
analysis call at line 116, so this holds whatever the analysis pass then does. -/
theorem C2_window_fifo (msgs : List Candle)
    (hinc : msgs.Pairwise fun a b => a.time < b.time) : ∀ n : Nat,
    (run_updates initBot (msgs.take n)).candles =
      (msgs.take n).drop ((msgs.take n).length - lookback_period) ∧
    ((msgs.take n).drop ((msgs.take n).length - lookback_period)).length ≤
      lookback_period := by
  intro n
  refine ⟨run_updates_window _ (hinc.sublist (List.take_sublist n msgs)), ?_⟩
  rw [List.length_drop]
  omega

/-- Witness for C2 at a concrete three-candle stream with times 0, 1, 2. -/
theorem C2_window_fifo_w :
    (msgsW.Pairwise fun a b => a.time < b.time) ∧
    ((run_updates initBot (msgsW.take 3)).candles =
      (msgsW.take 3).drop ((msgsW.take 3).length - lookback_period) ∧
     ((msgsW.take 3).drop ((msgsW.take 3).length - lookback_period)).length ≤
       lookback_period) :=
  ⟨by decide, C2_window_fifo msgsW (by decide) 3⟩

/-! ## Shape of every emitted double-top signal -/

theorem scan_top_emits (cs : List Candle) (highs : List ℚ) :
    ∀ (pairs : List (Nat × Nat)) (sig : Signal),
      scan_top cs highs pairs = Except.ok (some sig) →
      sig.pattern = "double_top" ∧ sig.stop_loss = max sig.peak1 sig.peak2 ∧
      sig.take_profit = sig.neckline - (sig.stop_loss - sig.neckline) ∧
      sig.entry = (lastCandle cs).close := by
  intro pairs
  induction pairs with
  | nil => intro sig h; simp [scan_top] at h
  | cons p rest ih =>
    intro sig h
    simp only [scan_top] at h
    split_ifs at h
    · exact ih sig h
    · cases Option.some.inj (Except.ok.inj h)
      exact ⟨rfl, rfl, rfl, rfl⟩
    · exact ih sig h
    · exact ih sig h

/-- C8: every signal `detect_double_top` emits is a double-top signal whose
stop loss is the larger peak price, whose take profit is the neckline minus
the stop-loss-to-neckline distance, and whose entry is the most recent close. -/
theorem C8_risk_params (cs : List Candle) (sig : Signal)
    (h : detect_double_top cs = Except.ok (some sig)) :
    sig.pattern = "double_top" ∧ sig.stop_loss = max sig.peak1 sig.peak2 ∧
    sig.take_profit = sig.neckline - (sig.stop_loss - sig.neckline) ∧
    sig.entry = (lastCandle cs).close := by
  simp only [detect_double_top] at h
  split_ifs at h with h1 h2
  · simp at h
  · simp at h
  · exact scan_top_emits cs _ _ sig h

set_option maxRecDepth 100000 in
/-- Witness for C8: on the 20-candle window `csC8` with equal peaks of 110 and
neckline 100, the emitted signal has stop loss 110 and take profit 90. -/
theorem C8_risk_params_w :
    detect_double_top csC8 = Except.ok (some sigC8) ∧
    (sigC8.pattern = "double_top" ∧ sigC8.stop_loss = max sigC8.peak1 sigC8.peak2 ∧
     sigC8.take_profit = sigC8.neckline - (sigC8.stop_loss - sigC8.neckline) ∧
     sigC8.entry = (lastCandle csC8).close) :=
  ⟨by with_unfolding_all rfl, C8_risk_params csC8 sigC8 (by with_unfolding_all rfl)⟩

/-- C9: on every strictly increasing series of length greater than `2*order`
(for a meaningful neighbour order, `order ≥ 1`; the source default is 3), the
peak finder returns the empty index list. -/
theorem C9_mono_no_peaks (data : List ℚ) (order : Nat) (h1 : 1 ≤ order)
    (h2 : 2 * order < data.length)
    (hmono : ∀ i ∈ List.range (data.length - 1), data.getD i 0 < data.getD (i + 1) 0) :
    find_peaks data order = [] := by
  unfold find_peaks
  rw [List.filter_eq_nil_iff]
  intro i hi
  have hmem := List.mem_range'_1.mp hi
  have hi2 : i + 1 < data.length := by omega
  have hlt := hmono i (List.mem_range.mpr (by omega))
  show ¬ isPeak data order i = true
  simp only [isPeak, Bool.and_eq_true, List.all_eq_true, decide_eq_true_eq, not_and]
  intro _ hall
  have h1m : (1 : Nat) ∈ List.range' 1 order := List.mem_range'_1.mpr (by omega)
  exact absurd (hall 1 h1m) (not_le.mpr hlt)

/-- Witness for C9 at the series [1,2,3,4,5,6,7] with order 3. -/
theorem C9_mono_no_peaks_w :
    (1 ≤ 3 ∧ 2 * 3 < mono7.length ∧
     ∀ i ∈ List.range (mono7.length - 1), mono7.getD i 0 < mono7.getD (i + 1) 0) ∧
    find_peaks mono7 3 = [] :=
  ⟨⟨by decide, by decide, by decide⟩,
   C9_mono_no_peaks mono7 3 (by decide) (by decide) (by decide)⟩

set_option maxRecDepth 100000 in
/-- C1 (counterexample): on the high series [1,2,3,10,3,2,1,1,2,3,10,3,2,1]
the peak finder does return exactly the indices 3 and 10, and the window `cs14`
realises the claimed scenario — equal peak highs (tolerance trivially
satisfied) and a most recent close (1/2) strictly below the lowest low (1)
between the peaks — yet `detect_double_top` emits no signal at all, refuting
the claim that it emits a double-top: the window has 14 < 20 candles and the
peak gap 10 - 3 = 7 is below `min_candles_between` = 10. -/
theorem C1_cex :
    find_peaks highs14 3 = [3, 10] ∧
    cs14.map (fun c => c.high) = highs14 ∧
    (lastCandle cs14).close <
      pyMin ((List.range' 3 (10 + 1 - 3)).map fun j => (cs14.getD j default).low) ∧
    detect_double_top cs14 = Except.ok none :=
  ⟨by with_unfolding_all decide, by with_unfolding_all decide,
   by with_unfolding_all decide, by with_unfolding_all rfl⟩

/-- C1 (amended): on the high series [1,2,3,10,3,2,1,1,2,3,10,3,2,1] with
order 3 the peak finder returns exactly the indices 3 and 10; but for every
candle window whose highs are this series, `detect_double_top` emits nothing
(the window is shorter than the 20-candle minimum, and the index gap 7 between
the two peaks is below `min_candles_between`), even when the most recent close
is strictly below the would-be neckline. -/
theorem C1_peaks_no_signal (cs : List Candle)
    (h : cs.map (fun c => c.high) = highs14) :
    find_peaks highs14 3 = [3, 10] ∧ detect_double_top cs = Except.ok none := by
  constructor
  · with_unfolding_all decide
  · have h14 : highs14.length = 14 := rfl
    have hlen : cs.length = 14 := by
      have hc := congrArg List.length h
      rw [List.length_map] at hc
      omega
    simp [detect_double_top, hlen]

set_option maxRecDepth 100000 in
/-- Witness for C1 (amended) at the concrete window `cs14`. -/
theorem C1_peaks_no_signal_w :
    cs14.map (fun c => c.high) = highs14 ∧
    (find_peaks highs14 3 = [3, 10] ∧ detect_double_top cs14 = Except.ok none) :=
  ⟨by with_unfolding_all decide, C1_peaks_no_signal cs14 (by with_unfolding_all decide)⟩

/-- C3: an upsert whose OHLC payload has a missing or non-numeric field is
rejected as a single update: the state (in particular the window) is exactly
unchanged, and the failure is surfaced to the caller as a reportable error
value, so subsequent candles can still be fed. -/
theorem C3_malformed_rejected (st : BotState) (m : RawOhlc)
    (h : m.epoch = none ∨ m.opn = none ∨ m.high = none ∨ m.low = none ∨
      m.close = none) :
    (update_candle st m).1 = st ∧ (update_candle st m).2.isSome = true := by
  have hp : ∃ e, parseOhlc m = Except.error e := by
    unfold parseOhlc
    rcases h with h | h | h | h | h <;> rw [h]
    · exact ⟨_, rfl⟩
    · cases m.epoch <;> exact ⟨_, rfl⟩
    · cases m.epoch <;> cases m.opn <;> exact ⟨_, rfl⟩
    · cases m.epoch <;> cases m.opn <;> cases m.high <;> exact ⟨_, rfl⟩
    · cases m.epoch <;> cases m.opn <;> cases m.high <;> cases m.low <;> exact ⟨_, rfl⟩
  obtain ⟨e, hpe⟩ := hp
  simp [update_candle, hpe]

/-- Witness for C3: feeding the payload `mBad` (missing high field) to the
one-candle state `stW3` leaves the state unchanged and reports an error. -/
theorem C3_malformed_rejected_w :
    (mBad.epoch = none ∨ mBad.opn = none ∨ mBad.high = none ∨ mBad.low = none ∨
      mBad.close = none) ∧
    ((update_candle stW3 mBad).1 = stW3 ∧ (update_candle stW3 mBad).2.isSome = true) :=
  ⟨Or.inr (Or.inr (Or.inl rfl)),
   C3_malformed_rejected stW3 mBad (Or.inr (Or.inr (Or.inl rfl)))⟩

/-- C4 (counterexample): upserting onto the window with times [1, 2] a candle
whose time 1 equals the time of the FIRST (non-last) stored candle does not
replace anything: the update branch only compares against the last entry
(time 2), so the candle is appended and the window afterwards holds the times
[1, 2, 1] — a duplicated time, refuting both "replaces that existing entry in
place and never appends a duplicate" and "at most one candle per distinct
time". -/
theorem C4_cex :
    ncC4.time = (stC4.candles.getD 0 default).time ∧
    (apply_candle stC4 ncC4).1.candles.map Candle.time = [1, 2, 1] := by
  constructor
  · rfl
  · with_unfolding_all rfl

/-- C4 (amended): the in-place replacement happens exactly when the upserted
time equals the LAST candle's time (then the window becomes the old window
with the last entry swapped, no append).  For a window with strictly
increasing times receiving an upsert whose time is at least every stored time
— the shape of every feed-ordered stream — the updated window again has
strictly increasing, hence pairwise distinct, times: at most one candle per
distinct time value. -/
theorem C4_upsert_inv (st : BotState) (nc : Candle)
    (hpw : st.candles.Pairwise fun a b => a.time < b.time)
    (hle : ∀ c ∈ st.candles, c.time ≤ nc.time) :
    ((apply_candle st nc).1.candles.Pairwise fun a b => a.time < b.time) ∧
    ((apply_candle st nc).1.candles.Pairwise fun a b => a.time ≠ b.time) ∧
    (st.candles.getLast?.map Candle.time = some nc.time →
      (apply_candle st nc).1.candles = st.candles.dropLast ++ [nc]) := by
  by_cases hb : st.candles.getLast?.map Candle.time = some nc.time
  · have he : (apply_candle st nc).1.candles = st.candles.dropLast ++ [nc] := by
      unfold apply_candle
      rw [if_pos hb]
    rw [he]
    rcases Option.map_eq_some'.mp hb with ⟨a, ha, hat⟩
    rcases List.getLast?_eq_some_iff.mp ha with ⟨ys, hys⟩
    have hpw2 : (st.candles.dropLast ++ [nc]).Pairwise
        (fun a b => a.time < b.time) := by
      rw [hys, List.dropLast_concat]
      rw [hys, List.pairwise_append] at hpw
      obtain ⟨hys_pw, -, hlast⟩ := hpw
      rw [List.pairwise_append]
      refine ⟨hys_pw, List.pairwise_singleton _ _, ?_⟩
      intro x hx b hbm
      rw [List.mem_singleton] at hbm
      subst hbm
      have hxa := hlast x hx a (List.mem_singleton_self a)
      omega
    exact ⟨hpw2, hpw2.imp fun hab => ne_of_lt hab, fun _ => rfl⟩
  · have he : (apply_candle st nc).1.candles = window_step st.candles nc :=
      apply_candle_append st nc hb
    rw [he]
    have hstrict : ∀ a ∈ st.candles, a.time < nc.time := by
      intro a hmem
      rcases lt_or_eq_of_le (hle a hmem) with hlt | heq
      · exact hlt
      · exfalso
        have hne : st.candles ≠ [] := List.ne_nil_of_mem hmem
        have hlasteq := List.getLast?_eq_getLast st.candles hne
        have hbnc : (st.candles.getLast hne).time ≠ nc.time := by
          intro hbt
          exact hb (by rw [hlasteq, Option.map_some', hbt])
        have hble : (st.candles.getLast hne).time ≤ nc.time :=
          hle _ (List.getLast_mem hne)
        rcases List.getLast?_eq_some_iff.mp hlasteq with ⟨ys, hys⟩
        rw [hys, List.pairwise_append] at hpw
        obtain ⟨-, -, hlt2⟩ := hpw
        rw [hys] at hmem
        rcases List.mem_append.mp hmem with hmem2 | hmem2
        · have := hlt2 a hmem2 _ (List.mem_singleton_self _)
          omega
        · rw [List.mem_singleton] at hmem2
          subst hmem2
          exact hbnc heq
    have hap : (st.candles ++ [nc]).Pairwise (fun a b => a.time < b.time) := by
      rw [List.pairwise_append]
      refine ⟨hpw, List.pairwise_singleton _ _, ?_⟩
      intro a ha b hbm
      rw [List.mem_singleton] at hbm
      subst hbm
      exact hstrict a ha
    have hpw2 : (window_step st.candles nc).Pairwise
        (fun a b => a.time < b.time) := by
      simp only [window_step]
      split_ifs
      · exact hap.sublist (List.drop_sublist 1 _)
      · exact hap
    exact ⟨hpw2, hpw2.imp fun hab => ne_of_lt hab, fun hlast => absurd hlast hb⟩

/-- Witness for C4 (amended): a same-time correction of the single (hence
last) candle of `stW4` replaces it, keeping strictly increasing times. -/
theorem C4_upsert_inv_w :
    ((stW4.candles.Pairwise fun a b => a.time < b.time) ∧
     ∀ c ∈ stW4.candles, c.time ≤ ncW4.time) ∧
    (((apply_candle stW4 ncW4).1.candles.Pairwise fun a b => a.time < b.time) ∧
     ((apply_candle stW4 ncW4).1.candles.Pairwise fun a b => a.time ≠ b.time) ∧
     (stW4.candles.getLast?.map Candle.time = some ncW4.time →
       (apply_candle stW4 ncW4).1.candles = stW4.candles.dropLast ++ [ncW4])) :=
  ⟨⟨by decide, by decide⟩, C4_upsert_inv stW4 ncW4 (by decide) (by decide)⟩

/-- C5: upserting a candle whose time equals the last candle's time replaces
only that last entry: the call returns the state with the last entry swapped
for the new candle and reports no error, the window length is unchanged (no
eviction), every other candle is unchanged (the first `length - 1` entries are
identical), and no new detection pass runs — the position is untouched. -/
theorem C5_replace_in_place (st : BotState) (nc : Candle)
    (h : st.candles.getLast?.map Candle.time = some nc.time) :
    apply_candle st nc =
      ({ st with candles := st.candles.dropLast ++ [nc] }, none) ∧
    (st.candles.dropLast ++ [nc]).length = st.candles.length ∧
    (st.candles.dropLast ++ [nc]).take (st.candles.length - 1) =
      st.candles.take (st.candles.length - 1) ∧
    ({ st with candles := st.candles.dropLast ++ [nc] } : BotState).position =
      st.position := by
  have hne : st.candles ≠ [] := by
    intro hnil
    rw [hnil] at h
    simp at h
  have hpos : 1 ≤ st.candles.length := List.length_pos.mpr hne
  have hl : st.candles.dropLast.length = st.candles.length - 1 :=
    List.length_dropLast _
  refine ⟨by unfold apply_candle; rw [if_pos h], ?_, ?_, rfl⟩
  · rw [List.length_append, List.length_dropLast]
    simp only [List.length_cons, List.length_nil]
    omega
  · rw [List.take_left' hl]
    exact List.dropLast_eq_take _

/-- Witness for C5 at the one-candle state `stW5` and the same-time update
`ncW5`. -/
theorem C5_replace_in_place_w :
    stW5.candles.getLast?.map Candle.time = some ncW5.time ∧
    (apply_candle stW5 ncW5 =
       ({ stW5 with candles := stW5.candles.dropLast ++ [ncW5] }, none) ∧
     (stW5.candles.dropLast ++ [ncW5]).length = stW5.candles.length ∧
     (stW5.candles.dropLast ++ [ncW5]).take (stW5.candles.length - 1) =
       stW5.candles.take (stW5.candles.length - 1) ∧
     ({ stW5 with candles := stW5.candles.dropLast ++ [ncW5] } : BotState).position =
       stW5.position) :=
  ⟨by decide, C5_replace_in_place stW5 ncW5 (by decide)⟩

/-- C6: with no open position, a first `execute_trade` call takes the
`executed` branch and records the position {trade type, entry, stop loss,
take profit} from its signal; a second call then takes the
`skipped_existing_position` branch, creates no new position, and leaves the
state — in particular the recorded position — unchanged (and, being a total
function, raises nothing). -/
theorem C6_single_position (st : BotState) (t1 t2 : String) (s1 s2 : Signal)
    (h : st.position = none) :
    (execute_trade st t1 s1).2 = ExecOutcome.executed ∧
    (execute_trade st t1 s1).1.position =
      some { type := t1, entry := s1.entry, stop_loss := s1.stop_loss,
             take_profit := s1.take_profit } ∧
    (execute_trade (execute_trade st t1 s1).1 t2 s2).2 =
      ExecOutcome.skipped_existing_position ∧
    (execute_trade (execute_trade st t1 s1).1 t2 s2).1 =
      (execute_trade st t1 s1).1 := by
  simp [execute_trade, h]

/-- Witness for C6: two successive `execute_trade` calls from the fresh state. -/
theorem C6_single_position_w :
    initBot.position = none ∧
    ((execute_trade initBot "PUT" sigW).2 = ExecOutcome.executed ∧
     (execute_trade initBot "PUT" sigW).1.position =
       some { type := "PUT", entry := sigW.entry, stop_loss := sigW.stop_loss,
              take_profit := sigW.take_profit } ∧
     (execute_trade (execute_trade initBot "PUT" sigW).1 "CALL" sigW).2 =
       ExecOutcome.skipped_existing_position ∧
     (execute_trade (execute_trade initBot "PUT" sigW).1 "CALL" sigW).1 =
       (execute_trade initBot "PUT" sigW).1) :=
  ⟨rfl, C6_single_position initBot "PUT" "CALL" sigW sigW rfl⟩

/-- C7 (counterexample): loading the empty history does not succeed — line 226
evaluates `self.candles[-1]` on the freshly emptied window and raises
`IndexError` (the replacement of the window by the empty history has already
happened), refuting "always succeeds" for the empty sequence. -/
theorem C7_cex :
    process_candles initBot [] =
      (initBot, some "IndexError: list index out of range") :=
  rfl

set_option maxRecDepth 100000 in
/-- C7 (amended): load always replaces the entire window contents with the
given sequence — the assignment (lines 87-95) precedes the analysis call, so
the replacement persists even when the pass then raises — but it does NOT
always succeed: the analysis raises IndexError on the empty sequence, and on
the well-formed 20-candle window `csZ` (non-negative prices, matched peaks of
price 0 at indices 3 and 14, gap 11) the tolerance division at line 160 raises
ZeroDivisionError. -/
theorem C7_load_replaces :
    (∀ (st : BotState) (cs : List Candle), (process_candles st cs).1.candles = cs) ∧
    (process_candles initBot csZ).2 =
      some "ZeroDivisionError: float division by zero" := by
  constructor
  · intro st cs
    exact analyze_patterns_fst_candles _
  · with_unfolding_all decide

/-- C10: in one analysis pass in which both a double top and a double bottom
confirm while no position is open, the double top is evaluated first and its
PUT trade takes the single position slot; the double bottom's CALL trade of
the same pass is then suppressed by the existing-position guard, so the pass
ends with exactly that one PUT position recorded and no escaped exception. -/
theorem C10_top_priority (st : BotState) (sigT sigB : Signal)
    (h : st.position = none)
    (hT : detect_double_top st.candles = Except.ok (some sigT))
    (hB : detect_double_bottom st.candles = Except.ok (some sigB)) :
    analyze_core st =
      ({ st with position := some ⟨"PUT", sigT.entry, sigT.stop_loss, sigT.take_profit⟩ },
       none) := by
  have h1 : after_top st =
      Except.ok ({ st with position := some ⟨"PUT", sigT.entry, sigT.stop_loss,
        sigT.take_profit⟩ } : BotState) := by
    unfold after_top
    rw [hT]
    simp [execute_trade, h]
  rw [analyze_core_ok st _ h1]
  have hB2 : detect_double_bottom
      ({ st with position := some ⟨"PUT", sigT.entry, sigT.stop_loss,
        sigT.take_profit⟩ } : BotState).candles = Except.ok (some sigB) := hB
  unfold bottom_pass
  rw [hB2]
  simp [execute_trade]

set_option maxRecDepth 100000 in
/-- Witness for C10 at the 34-candle window `cs34`, on which both patterns
confirm simultaneously; the pass records only the PUT position of the double
top. -/
theorem C10_top_priority_w :
    (stC10.position = none ∧
     detect_double_top stC10.candles = Except.ok (some sigT34) ∧
     detect_double_bottom stC10.candles = Except.ok (some sigB34)) ∧
    analyze_core stC10 =
      ({ stC10 with position := some ⟨"PUT", sigT34.entry, sigT34.stop_loss,
         sigT34.take_profit⟩ }, none) :=
  ⟨⟨rfl, by with_unfolding_all rfl, by with_unfolding_all rfl⟩,
   C10_top_priority stC10 sigT34 sigB34 rfl (by with_unfolding_all rfl)
     (by with_unfolding_all rfl)⟩
